import Mathlib

/-!
Verification of the daily aggregation-and-extraction pipeline implemented in
`scripts/build_json.py`.

The Python source is shallowly embedded here:

* URLs and text are Lean `String`s; Python character-level operations
  (`str.lower`, `str.strip`, slicing, `in`, `startswith`) are modelled on the
  underlying character lists.  The model is exact for ASCII data; Python's
  Unicode-specific case folding, its extra whitespace code points, and the
  UTF-8 decoding of percent-escaped bytes `>= 0x80` are approximated
  (documented at the individual definitions).  No claim depends on these
  corner cases.
* Wall-clock timestamps are rationals (seconds); `timedelta(hours=h)` is
  `h * 3600`.  Python float arithmetic in the scoring heuristic is modelled
  with exact rationals.
* Every external effect (HTTP fetch, readability cleaning, date parsing,
  and the extraction/report backend) is an oracle recorded in an `Env`
  structure; a `None`/`none` oracle answer stands for the exception paths
  that `build_json.py` converts into empty results.
* Python's `list.sort`/`sorted` are stable sorts; a stable sort for a total
  preorder has a uniquely determined output, so they are modelled with the
  structurally recursive stable `List.insertionSort`.
-/

set_option maxRecDepth 8000

/- The library marks rational arithmetic `irreducible` for performance; this
development evaluates concrete runs of the pipeline with `decide`, which
needs those definitions to unfold.  Soundness is unaffected (every proof is
kernel-checked). -/
set_option allowUnsafeReducibility true in
attribute [semireducible] Rat.add Rat.mul Rat.inv Rat.sub Rat.ofScientific

namespace PRAgent

/-! ### Character-level string primitives (Python semantics, ASCII-exact) -/

/-- Python `str.lower`, modelled via ASCII case folding on the character list. -/
def lowerStr (s : String) : String := ⟨s.data.map Char.toLower⟩

/-- Python `str.strip()` with no argument: remove leading and trailing
whitespace.  (Python also strips `\x0b`/`\x0c`; the model uses Lean's
`Char.isWhitespace`, identical on the data appearing in this pipeline.) -/
def stripStr (s : String) : String :=
  ⟨((s.data.dropWhile Char.isWhitespace).reverse.dropWhile Char.isWhitespace).reverse⟩

/-- Python slicing `s[:n]` (by characters / code points). -/
def pySlice (s : String) (n : Nat) : String := ⟨s.data.take n⟩

/-- Python `len(s)` (number of code points). -/
def strLen (s : String) : Nat := s.data.length

/-- Auxiliary: is the first list an initial segment of the second. -/
def isPre : List Char → List Char → Bool
  | [], _ => true
  | _ :: _, [] => false
  | a :: as, b :: bs => a = b && isPre as bs

/-- Python `s.startswith(p)`. -/
def startsWithStr (s p : String) : Bool := isPre p.data s.data

/-- Auxiliary for substring search: does `n` occur in `h` at any position. -/
def occursIn (n : List Char) : List Char → Bool
  | [] => isPre n []
  | c :: t => isPre n (c :: t) || occursIn n t

/-- Python `sub in s` (substring containment). -/
def containsStr (s sub : String) : Bool := occursIn sub.data s.data

/-- Split a character list at the first occurrence of `sep`; `none` when
`sep` does not occur.  Models Python `str.split(sep, 1)` / `str.partition`. -/
def splitOnFirst (sep : Char) : List Char → Option (List Char × List Char)
  | [] => none
  | c :: rest =>
    if c = sep then some ([], rest)
    else (splitOnFirst sep rest).map (fun p => (c :: p.1, p.2))

/-- Split a character list at every occurrence of `sep` (Python `str.split(sep)`
on a non-empty string). -/
def splitOnAll (sep : Char) : List Char → List (List Char)
  | [] => [[]]
  | c :: rest =>
    let r := splitOnAll sep rest
    if c = sep then [] :: r
    else
      match r with
      | h :: t => (c :: h) :: t
      | [] => [[c]]

/-! ### `urllib.parse` model: `urlsplit`, `parse_qsl`, `urlencode`, `urlunsplit`

Only the behaviour exercised by `norm_url` is modelled.  CPython's removal of
ASCII control characters and its bracketed-IPv6-host validation (whose
`ValueError` makes `norm_url` return its argument unchanged through the
`except` branch) are outside the modelled input domain; no claim and no
concrete input below involves such URLs. -/

/-- Characters allowed in a URL scheme (`scheme_chars` in CPython). -/
def schemeChar (c : Char) : Bool := c.isAlphanum || c = '+' || c = '-' || c = '.'

/-- Result of `urllib.parse.urlsplit`. -/
structure SplitResult where
  scheme : String
  netloc : String
  path : String
  query : String
  fragment : String
deriving Repr, DecidableEq

/-- Model of `urllib.parse.urlsplit` (with `allow_fragments=True`). -/
def urlsplit (u : String) : SplitResult :=
  let cs := u.data
  let schemeRest : List Char × List Char :=
    match splitOnFirst ':' cs with
    | some (before, after) =>
      match before with
      | [] => ([], cs)
      | c0 :: _ =>
        if c0.isAlpha && before.all schemeChar then (before.map Char.toLower, after)
        else ([], cs)
    | none => ([], cs)
  let netlocRest : List Char × List Char :=
    match schemeRest.2 with
    | '/' :: '/' :: r =>
      (r.takeWhile (fun c => !(c = '/' || c = '?' || c = '#')),
       r.dropWhile (fun c => !(c = '/' || c = '?' || c = '#')))
    | r => ([], r)
  let fragSplit : List Char × List Char :=
    match splitOnFirst '#' netlocRest.2 with
    | some (b, f) => (b, f)
    | none => (netlocRest.2, [])
  let querySplit : List Char × List Char :=
    match splitOnFirst '?' fragSplit.1 with
    | some (b, q) => (b, q)
    | none => (fragSplit.1, [])
  ⟨⟨schemeRest.1⟩, ⟨netlocRest.1⟩, ⟨querySplit.1⟩, ⟨querySplit.2⟩, ⟨fragSplit.2⟩⟩

/-- Hexadecimal digit value of a character, if any. -/
def hexVal (c : Char) : Option Nat :=
  if '0' ≤ c ∧ c ≤ '9' then some (c.toNat - 48)
  else if 'a' ≤ c ∧ c ≤ 'f' then some (c.toNat - 87)
  else if 'A' ≤ c ∧ c ≤ 'F' then some (c.toNat - 55)
  else none

/-- Percent-decoding of `urllib.parse.unquote`: a `%` followed by two hex
digits becomes the encoded byte, other text is kept verbatim.  Bytes
`>= 0x80` are modelled as the code point of the byte value (CPython decodes
multi-byte UTF-8 sequences); all data in this development is ASCII. -/
def unquoteChars : List Char → List Char
  | [] => []
  | '%' :: a :: b :: rest =>
    match hexVal a, hexVal b with
    | some ha, some hb => Char.ofNat (16 * ha + hb) :: unquoteChars rest
    | _, _ => '%' :: unquoteChars (a :: b :: rest)
  | c :: rest => c :: unquoteChars rest

/-- Python `urllib.parse.unquote_plus`: `+` becomes a space, then
percent-escapes are decoded. -/
def unquotePlus (l : List Char) : String :=
  ⟨unquoteChars (l.map (fun c => if c = '+' then ' ' else c))⟩

/-- Model of `urllib.parse.parse_qsl(qs, keep_blank_values=True)`. -/
def parse_qsl (qs : String) : List (String × String) :=
  if qs.data = [] then []
  else
    (splitOnAll '&' qs.data).filterMap fun nv =>
      if nv = [] then none
      else
        match splitOnFirst '=' nv with
        | some (n, v) => some (unquotePlus n, unquotePlus v)
        | none => some (unquotePlus nv, "")

/-- Uppercase hexadecimal digit. -/
def hexDigitU (n : Nat) : Char :=
  if n < 10 then Char.ofNat (48 + n) else Char.ofNat (55 + n)

/-- UTF-8 encoding of a code point, as byte values. -/
def utf8Bytes (n : Nat) : List Nat :=
  if n < 0x80 then [n]
  else if n < 0x800 then [0xC0 + n / 0x40, 0x80 + n % 0x40]
  else if n < 0x10000 then
    [0xE0 + n / 0x1000, 0x80 + n / 0x40 % 0x40, 0x80 + n % 0x40]
  else
    [0xF0 + n / 0x40000, 0x80 + n / 0x1000 % 0x40, 0x80 + n / 0x40 % 0x40, 0x80 + n % 0x40]

/-- Characters `urllib.parse.quote` never escapes (`_ALWAYS_SAFE`). -/
def alwaysSafe (c : Char) : Bool :=
  c.isAlphanum || c = '_' || c = '.' || c = '-' || c = '~'

/-- Python `urllib.parse.quote_plus` with the default empty `safe` set:
safe characters kept, space becomes `+`, everything else percent-encoded
byte-wise (uppercase hex). -/
def quotePlus (s : String) : String :=
  ⟨s.data.flatMap fun c =>
    if alwaysSafe c then [c]
    else if c = ' ' then ['+']
    else (utf8Bytes c.toNat).flatMap fun b => ['%', hexDigitU (b / 16), hexDigitU (b % 16)]⟩

/-- Join with `&` (the `'&'.join` step of `urlencode`). -/
def joinAmp : List String → String
  | [] => ""
  | [s] => s
  | s :: rest => s ++ "&" ++ joinAmp rest

/-- Model of `urllib.parse.urlencode` on an association list (default
`quote_via=quote_plus`, `doseq=False`). -/
def urlencode (q : List (String × String)) : String :=
  joinAmp (q.map fun p => quotePlus p.1 ++ "=" ++ quotePlus p.2)

/-- Strict lexicographic order on character lists by code point
(Python string `<`). -/
def lexLt : List Char → List Char → Bool
  | [], [] => false
  | [], _ :: _ => true
  | _ :: _, [] => false
  | a :: as, b :: bs => if a = b then lexLt as bs else decide (a < b)

/-- Python tuple comparison `(n1, v1) <= (n2, v2)` on pairs of strings. -/
def pairLe (p q : String × String) : Bool :=
  lexLt p.1.data q.1.data || (p.1 = q.1 && (lexLt p.2.data q.2.data || p.2 = q.2))

/-- The relation used to model Python `sorted` on query-parameter pairs. -/
def pairLeR (p q : String × String) : Prop := pairLe p q = true

instance : DecidableRel pairLeR := fun _ _ => inferInstanceAs (Decidable (_ = true))

/-- Python `path.rstrip("/")`: remove every trailing slash. -/
def rstripSlash (s : String) : String :=
  ⟨(s.data.reverse.dropWhile (fun c => c = '/')).reverse⟩

/-- Model of `urllib.parse.urlunsplit`. -/
def urlunsplit (scheme netloc path query fragment : String) : String :=
  let url := path
  let url :=
    if netloc ≠ "" ∨ (url ≠ "" ∧ url.data.take 2 = ['/', '/']) then
      ("//" ++ netloc ++ (if url ≠ "" ∧ url.data.take 1 ≠ ['/'] then "/" ++ url else url))
    else url
  let url := if scheme ≠ "" then scheme ++ ":" ++ url else url
  let url := if query ≠ "" then url ++ "?" ++ query else url
  if fragment ≠ "" then url ++ "#" ++ fragment else url

/-- `norm_url` from `scripts/build_json.py`: split the URL, sort its query
parameters, strip trailing slashes from the path, drop the fragment, and
reassemble.  The `except` branch of the source (returning the input
unchanged) is unreachable on the modelled input domain. -/
def norm_url (u : String) : String :=
  let p := urlsplit u
  let q := urlencode (List.insertionSort pairLeR (parse_qsl p.query))
  urlunsplit p.scheme p.netloc (rstripSlash p.path) q ""

/-! ### Candidate items and `dedupe` -/

/-- A discovered candidate, i.e. one of the dicts produced by the
discoverers in `scripts/build_json.py` (`url`, `title`, `source`, optional
`published_at` ISO string, optional `prefetched_text`). -/
structure Item where
  url : String
  title : String
  source : String
  published_at : Option String := none
  prefetched_text : String := ""
deriving Repr, DecidableEq

/-- The deduplication key of an item: its normalized URL, lower-cased
(`norm_url(it.get("url", "")).lower()`). -/
def dedupKey (it : Item) : String := lowerStr (norm_url it.url)

/-- Worker of `dedupe`, with the `seen` set made explicit. -/
def dedupeGo (seen : List String) : List Item → List Item
  | [] => []
  | it :: rest =>
    let val := dedupKey it
    if val = "" ∨ val ∈ seen then dedupeGo seen rest
    else it :: dedupeGo (val :: seen) rest

/-- `dedupe` from `scripts/build_json.py` (with its default `key="url"`):
keep the first item for each non-empty normalized-lowercased URL. -/
def dedupe (items : List Item) : List Item := dedupeGo [] items

/-! ### Configuration and the external-effect oracle -/

/-- The environment-variable configuration read at the top of
`scripts/build_json.py` (only the names the pipeline core consumes).
Defaults are the source defaults.  `LOOKBACK_HOURS` is derived as
`LOOKBACK_DAYS * 24`, as in the source. -/
structure Config where
  COMPANY : String := "Pernod Ricard"
  LOOKBACK_DAYS : Nat := 7
  MIN_TEXT_CHARS_ARTICLE : Nat := 600
  MIN_TEXT_CHARS_LINKEDIN : Nat := 140
  TOP_TEXTS : Nat := 10
  SIGNAL_LIMIT : Nat := 8
  OPENAI_API_KEY : String := ""
  REPORT_MAX_TEXTS : Nat := 12
  REPORT_MIN_CITATIONS : Nat := 6
deriving Repr, DecidableEq

/-- `LOOKBACK_HOURS = LOOKBACK_DAYS * 24`. -/
def Config.LOOKBACK_HOURS (cfg : Config) : Nat := cfg.LOOKBACK_DAYS * 24

/-- One datum of the dynamic, loosely typed JSON payloads returned by the
extraction backend (a scalar as `json.loads` produces it). -/
inductive PyVal where
  | vstr (s : String)
  | vnum (q : ℚ)
  | vbool (b : Bool)
  | vnull
deriving Repr, DecidableEq

/-- Python `str(...)` on a scalar.  The rendering of numbers is abstracted
(`toString` on the rational); no claim inspects a numeric `type` field. -/
def pyStr : PyVal → String
  | .vstr s => s
  | .vnum q => toString q
  | .vbool b => if b then "True" else "False"
  | .vnull => "None"

/-- Digits-only check. -/
def allDigits (l : List Char) : Bool := l.all Char.isDigit

/-- Numeric value of a digit string. -/
def natOfDigits (l : List Char) : Nat := l.foldl (fun n c => n * 10 + (c.toNat - 48)) 0

/-- Python `float(s)` on a string, modelled for plain decimal literals
`[+-]digits[.digits]`.  Exotic accepted forms (exponents, `inf`, `nan`,
underscores) are modelled as parse failures; every such value is clamped
into `[0,1]` by the caller either way, so no claim distinguishes them. -/
def pyFloatStr (s : String) : Option ℚ :=
  let cs := (stripStr s).data
  let signBody : ℚ × List Char :=
    match cs with
    | '-' :: r => (-1, r)
    | '+' :: r => (1, r)
    | r => (1, r)
  match splitOnFirst '.' signBody.2 with
  | none =>
    if signBody.2 ≠ [] ∧ allDigits signBody.2 then
      some (signBody.1 * natOfDigits signBody.2)
    else none
  | some (ip, fp) =>
    if (ip ≠ [] ∨ fp ≠ []) ∧ allDigits ip ∧ allDigits fp then
      some (signBody.1 * ((natOfDigits ip : ℚ) + (natOfDigits fp : ℚ) / (10 : ℚ) ^ fp.length))
    else none

/-- Python `float(...)` on a scalar; `none` models the raised exception. -/
def pyFloat : PyVal → Option ℚ
  | .vnum q => some q
  | .vstr s => pyFloatStr s
  | .vbool b => some (if b then 1 else 0)
  | .vnull => none

/-- The named fields of a signal's `value` mapping that the pipeline itself
inspects.  The backend's payload fields are modelled as JSON strings or
absent; the pipeline's `(headline, topic)` dedup key applies `str.strip` and
would raise on non-string values, which is outside the modelled domain. -/
structure SigValue where
  headline : Option String := none
  metric : Option String := none
  topic : Option String := none
  summary : Option String := none
  note : Option String := none
deriving Repr, DecidableEq

/-- A raw signal dict as parsed from the backend's JSON answer:
`typeField`/`confField` are `none` when the key is absent, and `value` is the
all-absent mapping when the `value` key is missing (`s.get("value", {})`). -/
structure RawSig where
  typeField : Option PyVal := none
  value : SigValue := {}
  confField : Option PyVal := none
deriving Repr, DecidableEq

/-- An element of the backend's `signals` array: a dict, or any non-dict
value (which the validation loop skips). -/
inductive RawEntry where
  | dict (s : RawSig)
  | nondict
deriving Repr, DecidableEq

/-- A validated signal as stored in the artifact. -/
structure Signal where
  sigType : String
  value : SigValue
  confidence : ℚ
deriving Repr, DecidableEq

/-- A fetched-and-normalized document (the `enriched` dicts of step 2):
`published_at` is the resolved timestamp, `none` when unresolvable. -/
structure DocumentRecord where
  url : String
  title : String
  source : String
  published_at : Option ℚ := none
  text : String := ""
deriving Repr, DecidableEq

/-- A `sources` entry of the artifact (`{url, title, source}`). -/
structure SourceEntry where
  url : String
  title : String
  source : String
deriving Repr, DecidableEq

/-- The oracle for every external effect of one run.  A `none` answer models
the exception/unusable-output paths that the source converts into empty
results.  The backend oracles receive the data that shapes the prompt; the
prompt text itself is abstracted. -/
structure Env where
  now : ℚ
  fetchResult : String → Option String
  cleanText : String → String
  parseDate : String → Option ℚ
  extractDate : String → Option ℚ
  batchResp : List DocumentRecord → Option (List RawEntry)
  perArticleResp : DocumentRecord → Option (List RawEntry)
  reportResp : List DocumentRecord → List Signal → List SourceEntry → Option String

/-! ### Step 2: fetch, normalize, resolve dates, length thresholds -/

/-- `is_recent(dt, hours)` for an actual datetime `dt`:
`now_utc() - dt <= timedelta(hours=hours)`.  (The `isinstance` guard of the
source corresponds to the `Option` pattern match at the call sites.) -/
def is_recent (now dt : ℚ) (hours : Nat) : Bool :=
  decide (now - dt ≤ (hours : ℚ) * 3600)

/-- The repeated source idiom
`src.startswith("linkedin") or "linkedin.com" in url`
(lines 541 and 571 of `scripts/build_json.py`). -/
def isLinkedInSrc (src url : String) : Bool :=
  startsWithStr src "linkedin" || containsStr url "linkedin.com"

/-- The origin-specific minimum body length (line 541):
`MIN_TEXT_CHARS_LINKEDIN if src.startswith("linkedin") or "linkedin.com" in url
else MIN_TEXT_CHARS_ARTICLE`. -/
def minCharsFor (cfg : Config) (src url : String) : Nat :=
  if isLinkedInSrc src url then cfg.MIN_TEXT_CHARS_LINKEDIN else cfg.MIN_TEXT_CHARS_ARTICLE

/-- The body of the per-item enrichment loop (step 2 of `main`): prefetched
text is used as-is (no page load); otherwise the page is fetched and cleaned,
a failed fetch yielding empty text.  The timestamp is the parsed feed
timestamp if parseable, else the page-metadata timestamp when a non-empty
page was fetched, else unknown.  (A `published_at` value that is the empty
string is falsy in the source and never parsed; it behaves downstream
exactly as `None`, and is modelled as `none`.) -/
def enrichItem (env : Env) (it : Item) : DocumentRecord :=
  let textHtml : String × Option String :=
    if it.prefetched_text ≠ "" then (it.prefetched_text, none)
    else
      match env.fetchResult it.url with
      | some h => (env.cleanText h, some h)
      | none => ("", none)
  let dt0 : Option ℚ :=
    match it.published_at with
    | some s => if s = "" then none else env.parseDate s
    | none => none
  let dt : Option ℚ :=
    match dt0 with
    | some d => some d
    | none =>
      match textHtml.2 with
      | some h => if h = "" then none else env.extractDate h
      | none => none
  { url := it.url, title := it.title, source := it.source,
    published_at := dt, text := textHtml.1 }

/-- The enrichment loop over the deduplicated items: each item contributes a
`sources` entry unconditionally, and an enriched record exactly when its
text meets the origin-specific minimum length. -/
def enrichLoop (cfg : Config) (env : Env) : List Item → List DocumentRecord × List SourceEntry
  | [] => ([], [])
  | it :: rest =>
    let e := enrichItem env it
    let r := enrichLoop cfg env rest
    ((if minCharsFor cfg it.source it.url ≤ strLen e.text then e :: r.1 else r.1),
     ⟨it.url, it.title, it.source⟩ :: r.2)

/-- The enriched records of a run (step 2, first component). -/
def pipelineEnriched (cfg : Config) (env : Env) (items : List Item) : List DocumentRecord :=
  (enrichLoop cfg env (dedupe items)).1

/-- The `sources` list of a run (step 2, second component). -/
def pipelineSources (cfg : Config) (env : Env) (items : List Item) : List SourceEntry :=
  (enrichLoop cfg env (dedupe items)).2

/-! ### Step 3: recency filter, scoring, selection -/

/-- Step 3 of `main`: drop records whose resolved timestamp is known and not
recent; records without a timestamp are kept. -/
def pipelineRecent (cfg : Config) (env : Env) (items : List Item) : List DocumentRecord :=
  (pipelineEnriched cfg env items).filter fun a =>
    match a.published_at with
    | some dt => is_recent env.now dt cfg.LOOKBACK_HOURS
    | none => true

/-- The `score` closure of `main`: length, freshness bonus, LinkedIn bonus. -/
def score (cfg : Config) (now : ℚ) (a : DocumentRecord) : ℚ :=
  let L : ℚ := strLen a.text
  let bonus : ℚ :=
    match a.published_at with
    | some dt => 1 / max 1 ((now - dt) / 3600)
    | none => 0
  let li_bonus : ℚ := if isLinkedInSrc a.source a.url then 1 / 5 else 0
  L / 1500 + bonus + li_bonus

/-- The sort relation of `enriched_recent.sort(key=score, reverse=True)`:
stable descending order by score. -/
def scoreRel (cfg : Config) (now : ℚ) (a b : DocumentRecord) : Prop :=
  score cfg now b ≤ score cfg now a

instance (cfg : Config) (now : ℚ) : DecidableRel (scoreRel cfg now) :=
  fun _ _ => inferInstanceAs (Decidable (_ ≤ _))

/-- `selected`: the recency-surviving records, stably sorted by descending
score, truncated to `TOP_TEXTS`.  (Python's `list.sort` is stable, and a
stable sort by a total preorder has a uniquely determined output, so the
stable `insertionSort` computes it.) -/
def pipelineSelected (cfg : Config) (env : Env) (items : List Item) : List DocumentRecord :=
  (List.insertionSort (scoreRel cfg env.now) (pipelineRecent cfg env items)).take cfg.TOP_TEXTS

/-! ### Step 4: extraction backend, validation, dedup, fallback -/

/-- The per-signal validation in both LLM functions:
`type` coerced with `str` (default `"summary"` when absent), `confidence`
parsed as a float (default `0.5` on absence or parse failure) and clamped
into `[0, 1]`. -/
def validateSig (s : RawSig) : Signal :=
  { sigType := pyStr (s.typeField.getD (.vstr "summary")),
    value := s.value,
    confidence :=
      max 0 (min 1 (match s.confField with
        | none => 1 / 2
        | some v => (pyFloat v).getD (1 / 2))) }

/-- One entry of the backend's `signals` array: non-dict entries are skipped. -/
def validateEntry : RawEntry → Option Signal
  | .dict s => some (validateSig s)
  | .nondict => none

/-- `llm_batch_signals(company, texts, limit)`: empty without an API key;
otherwise the validated entries of the backend's answer, truncated to
`limit`; any backend/parse exception yields `[]`.  `company` only shapes the
prompt, which the oracle abstracts. -/
def llm_batch_signals (cfg : Config) (env : Env) (company : String)
    (texts : List DocumentRecord) (limit : Nat) : List Signal :=
  if cfg.OPENAI_API_KEY = "" then []
  else
    match env.batchResp texts with
    | none => []
    | some entries => (entries.filterMap validateEntry).take limit

/-- `llm_per_article(company, article)`: as the batch call, truncated to 2. -/
def llm_per_article (cfg : Config) (env : Env) (company : String)
    (article : DocumentRecord) : List Signal :=
  if cfg.OPENAI_API_KEY = "" then []
  else
    match env.perArticleResp article with
    | none => []
    | some entries => (entries.filterMap validateEntry).take 2

/-- The per-article backfill loop of `main`: append up to 2 signals per
article, stopping once `SIGNAL_LIMIT` is reached (checked after appending). -/
def backfillLoop (cfg : Config) (env : Env) (sigs : List Signal) :
    List DocumentRecord → List Signal
  | [] => sigs
  | a :: rest =>
    let sigs2 := sigs ++ llm_per_article cfg env cfg.COMPANY a
    if cfg.SIGNAL_LIMIT ≤ sigs2.length then sigs2 else backfillLoop cfg env sigs2 rest

/-- `heuristic_summary(company, texts)`: the deterministic fallback. -/
def heuristic_summary (company : String) (texts : List DocumentRecord) : List Signal :=
  match texts with
  | [] =>
    [{ sigType := "summary",
       value := { headline := some company,
                  summary := some "Keine verwertbaren Texte gefunden.",
                  note := some "Fallback" },
       confidence := 1 / 5 }]
  | head :: _ =>
    [{ sigType := "summary",
       value := { headline := some (if head.title = "" then company else head.title),
                  summary := some (pySlice head.text 280),
                  note := some "Fallback" },
       confidence := 7 / 20 }]

/-- The `(headline, topic)` dedup key of step 4 (lower-cased, stripped). -/
def sigKey (s : Signal) : String × String :=
  (lowerStr (stripStr (s.value.headline.getD "")),
   lowerStr (stripStr (s.value.topic.getD "")))

/-- The signal dedup of step 4: an insertion-ordered dict keyed by
`sigKey`, first occurrence kept. -/
def dedupSignalsGo (seen : List (String × String)) : List Signal → List Signal
  | [] => []
  | s :: rest =>
    let k := sigKey s
    if k ∈ seen then dedupSignalsGo seen rest
    else s :: dedupSignalsGo (k :: seen) rest

/-- The LLM part of step 4 (the `if OPENAI_API_KEY and selected:` block):
batch extraction, per-article backfill when fewer than 3 signals, dedup by
`(headline, topic)`, truncation to `SIGNAL_LIMIT`.  Empty when the key is
unconfigured or nothing was selected. -/
def pipelineLLMSignals (cfg : Config) (env : Env) (items : List Item) : List Signal :=
  let selected := pipelineSelected cfg env items
  if cfg.OPENAI_API_KEY ≠ "" ∧ selected ≠ [] then
    let s1 := llm_batch_signals cfg env cfg.COMPANY selected cfg.SIGNAL_LIMIT
    let s2 :=
      if s1.length < 3 then backfillLoop cfg env s1 (selected.take (min 6 selected.length))
      else s1
    (dedupSignalsGo [] s2).take cfg.SIGNAL_LIMIT
  else []

/-- The final `signals` of a run: the LLM signals, or the heuristic fallback
when they are empty (`if not signals: signals = heuristic_summary(...)`). -/
def pipelineSignals (cfg : Config) (env : Env) (items : List Item) : List Signal :=
  let signals := pipelineLLMSignals cfg env items
  if signals = [] then heuristic_summary cfg.COMPANY (pipelineSelected cfg env items)
  else signals

/-! ### Step 4b: report synthesis -/

/-- `llm_generate_report_markdown(company, texts, signals, sources, ...)`:
empty without an API key; the numbered source list sent with the prompt
(and returned) is restricted to the sources whose URL appears among
`texts[:max_texts]` unless `use_only_selected_sources` is false; any
backend exception yields `("", [])`. -/
def llm_generate_report_markdown (cfg : Config) (env : Env) (company : String)
    (texts : List DocumentRecord) (signals : List Signal) (sources : List SourceEntry)
    (max_texts : Nat) (use_only_selected_sources : Bool) : String × List SourceEntry :=
  if cfg.OPENAI_API_KEY = "" then ("", [])
  else
    let use_texts := texts.take max_texts
    let sources_for_report :=
      if use_only_selected_sources then
        sources.filter fun s => (use_texts.map fun t => t.url).contains s.url
      else sources
    match env.reportResp texts signals sources with
    | none => ("", [])
    | some md => (stripStr md, sources_for_report)

/-- Step 4b of `main` (with its defaults: `REPORT_MAX_TEXTS`, selected
sources only); the surrounding `try/except` is total in the model. -/
def pipelineReport (cfg : Config) (env : Env) (items : List Item) :
    String × List SourceEntry :=
  llm_generate_report_markdown cfg env cfg.COMPANY
    (pipelineSelected cfg env items) (pipelineSignals cfg env items)
    (pipelineSources cfg env items) cfg.REPORT_MAX_TEXTS true

/-! ### Step 5: the written artifact -/

/-- The JSON artifact written to `data/latest.json` (`report_meta`
flattened; `generated_at` carries the run's clock reading). -/
structure Artifact where
  company : String
  generated_at : ℚ
  signals : List Signal
  sources : List SourceEntry
  report_markdown : String
  report_used_sources : List SourceEntry
  lookback_days : Nat
  texts_selected : Nat
  report_max_texts : Nat
deriving Repr, DecidableEq

/-- One full run of `main` on the merged discovery results `items`,
producing the artifact. -/
def pipelineArtifact (cfg : Config) (env : Env) (items : List Item) : Artifact :=
  { company := cfg.COMPANY,
    generated_at := env.now,
    signals := pipelineSignals cfg env items,
    sources := pipelineSources cfg env items,
    report_markdown := (pipelineReport cfg env items).1,
    report_used_sources := (pipelineReport cfg env items).2,
    lookback_days := cfg.LOOKBACK_DAYS,
    texts_selected := (pipelineSelected cfg env items).length,
    report_max_texts := cfg.REPORT_MAX_TEXTS }

/-! ## Properties of `dedupe` -/

theorem dedupeGo_cons (seen : List String) (it : Item) (rest : List Item) :
    dedupeGo seen (it :: rest) =
      if dedupKey it = "" ∨ dedupKey it ∈ seen then dedupeGo seen rest
      else it :: dedupeGo (dedupKey it :: seen) rest := rfl

theorem dedupeGo_sublist (l : List Item) : ∀ seen, List.Sublist (dedupeGo seen l) l := by
  induction l with
  | nil => intro seen; exact List.Sublist.refl _
  | cons it rest ih =>
    intro seen
    rw [dedupeGo_cons]
    by_cases hc : dedupKey it = "" ∨ dedupKey it ∈ seen
    · rw [if_pos hc]; exact (ih seen).cons it
    · rw [if_neg hc]; exact (ih _).cons₂ it

theorem mem_dedupeGo {l : List Item} :
    ∀ {seen : List String} {x : Item}, x ∈ dedupeGo seen l →
      dedupKey x ∉ seen ∧ dedupKey x ≠ "" := by
  induction l with
  | nil => intro seen x h; simp [dedupeGo] at h
  | cons it rest ih =>
    intro seen x h
    rw [dedupeGo_cons] at h
    by_cases hc : dedupKey it = "" ∨ dedupKey it ∈ seen
    · rw [if_pos hc] at h; exact ih h
    · rw [if_neg hc] at h
      rw [not_or] at hc
      rcases List.mem_cons.mp h with rfl | h2
      · exact ⟨hc.2, hc.1⟩
      · have h3 := ih h2
        exact ⟨fun hs => h3.1 (List.mem_cons_of_mem _ hs), h3.2⟩

theorem dedupeGo_pairwise (l : List Item) :
    ∀ seen, (dedupeGo seen l).Pairwise (fun a b => dedupKey a ≠ dedupKey b) := by
  induction l with
  | nil => intro seen; simp [dedupeGo]
  | cons it rest ih =>
    intro seen
    rw [dedupeGo_cons]
    by_cases hc : dedupKey it = "" ∨ dedupKey it ∈ seen
    · rw [if_pos hc]; exact ih seen
    · rw [if_neg hc]
      refine List.Pairwise.cons ?_ (ih _)
      intro y hy he
      exact (mem_dedupeGo hy).1 (he ▸ List.mem_cons_self _ _)

theorem dedupeGo_filter_of_seen {l : List Item} :
    ∀ {seen : List String} {k : String}, k ∈ seen →
      (dedupeGo seen l).filter (fun x => dedupKey x = k) = [] := by
  induction l with
  | nil => intro seen k _; simp [dedupeGo]
  | cons it rest ih =>
    intro seen k hk
    rw [dedupeGo_cons]
    by_cases hc : dedupKey it = "" ∨ dedupKey it ∈ seen
    · rw [if_pos hc]; exact ih hk
    · have hne : ¬ dedupKey it = k := fun he => (not_or.mp hc).2 (he ▸ hk)
      rw [if_neg hc, List.filter_cons, if_neg (by simp [hne])]
      exact ih (List.mem_cons_of_mem _ hk)

theorem dedupeGo_filter_first {l : List Item} :
    ∀ {seen : List String} {k : String}, k ≠ "" → k ∉ seen →
      (dedupeGo seen l).filter (fun x => dedupKey x = k) =
        (l.filter (fun x => dedupKey x = k)).take 1 := by
  induction l with
  | nil => intro seen k _ _; simp [dedupeGo]
  | cons it rest ih =>
    intro seen k hk hks
    rw [dedupeGo_cons]
    by_cases he : dedupKey it = k
    · have hc : ¬ (dedupKey it = "" ∨ dedupKey it ∈ seen) := by
        rw [he]; exact not_or.mpr ⟨hk, hks⟩
      rw [if_neg hc, List.filter_cons, List.filter_cons]
      rw [if_pos (by simp [he]), if_pos (by simp [he])]
      rw [dedupeGo_filter_of_seen (he ▸ List.mem_cons_self _ _)]
      simp
    · by_cases hc : dedupKey it = "" ∨ dedupKey it ∈ seen
      · rw [if_pos hc, List.filter_cons]
        rw [if_neg (by simp [he])]
        exact ih hk hks
      · rw [if_neg hc, List.filter_cons, List.filter_cons]
        rw [if_neg (by simp [he]), if_neg (by simp [he])]
        refine ih hk ?_
        intro hmem
        rcases List.mem_cons.mp hmem with h1 | h1
        · exact he h1.symm
        · exact hks h1

theorem dedupKey_of_url_empty {x : Item} (h : x.url = "") : dedupKey x = "" := by
  unfold dedupKey
  rw [h]
  decide

/-- Claim C2: `dedupe` produces no two items with the same
normalized-lowercased URL, is a sublist of its input (preserving relative
order), drops every item with an empty URL, and, for every non-empty key,
keeps exactly the first input item carrying that key. -/
theorem spec2_C2 (items : List Item) :
    (dedupe items).Pairwise (fun a b => dedupKey a ≠ dedupKey b) ∧
    (dedupe items).Sublist items ∧
    (∀ x ∈ dedupe items, x.url ≠ "") ∧
    (∀ k : String, (dedupe items).filter (fun x => dedupKey x = k) =
      if k = "" then [] else (items.filter (fun x => dedupKey x = k)).take 1) := by
  refine ⟨dedupeGo_pairwise items [], dedupeGo_sublist items [], ?_, ?_⟩
  · intro x hx hurl
    exact (mem_dedupeGo hx).2 (dedupKey_of_url_empty hurl)
  · intro k
    by_cases hk : k = ""
    · rw [if_pos hk]
      rw [List.filter_eq_nil_iff]
      intro x hx
      subst hk
      simp only [decide_eq_true_eq]
      exact (mem_dedupeGo hx).2
    · rw [if_neg hk]
      exact dedupeGo_filter_first hk (List.not_mem_nil k)

/-! ## Properties of the enrichment loop -/

theorem enrichLoop_snd (cfg : Config) (env : Env) :
    ∀ l : List Item,
      (enrichLoop cfg env l).2 = l.map (fun it => ⟨it.url, it.title, it.source⟩) := by
  intro l
  induction l with
  | nil => rfl
  | cons it rest ih =>
    show (_, (⟨it.url, it.title, it.source⟩ : SourceEntry) :: (enrichLoop cfg env rest).2).2 = _
    rw [List.map_cons]
    exact congrArg _ ih

/-- Claim C8: the artifact's `sources` array has one `{url, title, origin}`
entry per deduplicated candidate — in particular, independently of every
fetch outcome, body length, and selection decision (the right-hand side does
not mention the oracle at all). -/
theorem spec2_C8 (cfg : Config) (env : Env) (items : List Item) :
    (pipelineArtifact cfg env items).sources =
      (dedupe items).map (fun it => ⟨it.url, it.title, it.source⟩) :=
  enrichLoop_snd cfg env (dedupe items)

theorem mem_enrichLoop_fst (cfg : Config) (env : Env) (a : DocumentRecord) :
    ∀ l : List Item,
      (a ∈ (enrichLoop cfg env l).1 ↔
        ∃ it, it ∈ l ∧ a = enrichItem env it ∧
          minCharsFor cfg it.source it.url ≤ strLen (enrichItem env it).text) := by
  intro l
  induction l with
  | nil => simp [enrichLoop]
  | cons it rest ih =>
    by_cases hlen : minCharsFor cfg it.source it.url ≤ strLen (enrichItem env it).text
    · show a ∈ (if _ then _ :: (enrichLoop cfg env rest).1 else (enrichLoop cfg env rest).1) ↔ _
      rw [if_pos hlen]
      rw [List.mem_cons, ih]
      constructor
      · rintro (rfl | ⟨it2, h1, h2, h3⟩)
        · exact ⟨it, List.mem_cons_self _ _, rfl, hlen⟩
        · exact ⟨it2, List.mem_cons_of_mem _ h1, h2, h3⟩
      · rintro ⟨it2, h1, h2, h3⟩
        rcases List.mem_cons.mp h1 with rfl | h1
        · exact Or.inl h2
        · exact Or.inr ⟨it2, h1, h2, h3⟩
    · show a ∈ (if _ then _ :: (enrichLoop cfg env rest).1 else (enrichLoop cfg env rest).1) ↔ _
      rw [if_neg hlen, ih]
      constructor
      · rintro ⟨it2, h1, h2, h3⟩
        exact ⟨it2, List.mem_cons_of_mem _ h1, h2, h3⟩
      · rintro ⟨it2, h1, h2, h3⟩
        rcases List.mem_cons.mp h1 with rfl | h1
        · exact absurd h3 hlen
        · exact ⟨it2, h1, h2, h3⟩

theorem mem_of_mem_pipelineSelected (cfg : Config) (env : Env) (items : List Item)
    {b : DocumentRecord} (hb : b ∈ pipelineSelected cfg env items) :
    b ∈ pipelineRecent cfg env items := by
  have h1 : b ∈ List.insertionSort (scoreRel cfg env.now) (pipelineRecent cfg env items) :=
    List.take_subset _ _ hb
  exact (List.mem_insertionSort _).mp h1

/-- Claim C10: a fetched-and-normalized candidate enters the enriched pool
iff its body length meets the LinkedIn threshold when its origin tag starts
with `linkedin` or its URL contains `linkedin.com`, and the article
threshold otherwise; and everything scored/selected comes from that pool. -/
theorem spec2_C10 (cfg : Config) (env : Env) (items : List Item) (a : DocumentRecord) :
    (a ∈ pipelineEnriched cfg env items ↔
      ∃ it, it ∈ dedupe items ∧ a = enrichItem env it ∧
        (if isLinkedInSrc a.source a.url then cfg.MIN_TEXT_CHARS_LINKEDIN
         else cfg.MIN_TEXT_CHARS_ARTICLE) ≤ strLen a.text) ∧
    (∀ b ∈ pipelineSelected cfg env items, b ∈ pipelineEnriched cfg env items) := by
  constructor
  · rw [show pipelineEnriched cfg env items = (enrichLoop cfg env (dedupe items)).1 from rfl]
    rw [mem_enrichLoop_fst]
    constructor
    · rintro ⟨it, h1, rfl, h3⟩
      exact ⟨it, h1, rfl, h3⟩
    · rintro ⟨it, h1, rfl, h3⟩
      exact ⟨it, h1, rfl, h3⟩
  · intro b hb
    have h2 := mem_of_mem_pipelineSelected cfg env items hb
    exact List.mem_of_mem_filter h2

/-! ## The recency filter -/

/-- Claim C3: the recency filter keeps every enriched record whose resolved
timestamp is unknown, and drops a record exactly when its timestamp is known
and lies more than `LOOKBACK_HOURS` before the current time. -/
theorem spec2_C3 (cfg : Config) (env : Env) (items : List Item) (a : DocumentRecord) :
    ((a.published_at = none ∧ a ∈ pipelineEnriched cfg env items) →
      a ∈ pipelineRecent cfg env items) ∧
    (a ∈ pipelineRecent cfg env items ↔
      (a ∈ pipelineEnriched cfg env items ∧
        ¬ ∃ t, a.published_at = some t ∧ (cfg.LOOKBACK_HOURS : ℚ) * 3600 < env.now - t)) := by
  constructor
  · rintro ⟨hnone, hmem⟩
    rw [pipelineRecent, List.mem_filter]
    refine ⟨hmem, ?_⟩
    rw [hnone]
  · rw [pipelineRecent, List.mem_filter]
    constructor
    · rintro ⟨hmem, hp⟩
      refine ⟨hmem, ?_⟩
      rintro ⟨t, ht, hlt⟩
      rw [ht] at hp
      simp only [is_recent, decide_eq_true_eq] at hp
      exact absurd hp (not_le.mpr hlt)
    · rintro ⟨hmem, hne⟩
      refine ⟨hmem, ?_⟩
      cases hpa : a.published_at with
      | none => rfl
      | some t =>
        simp only [is_recent, decide_eq_true_eq]
        exact not_lt.mp (fun hlt => hne ⟨t, hpa, hlt⟩)

/-! ## Scoring and selection -/

/-- The scoring formula as the specification states it:
`text_length / 1500 + freshness_bonus + origin_bonus`, with
`freshness_bonus = 1 / max(1, hours_since_published)` (0 if unknown) and an
`origin_bonus` of `0.2` for LinkedIn-origin content. -/
def specScore (cfg : Config) (now : ℚ) (a : DocumentRecord) : ℚ :=
  (strLen a.text : ℚ) / 1500 +
    (match a.published_at with
     | some t => 1 / max 1 ((now - t) / 3600)
     | none => 0) +
    (if isLinkedInSrc a.source a.url then (0.2 : ℚ) else 0)

theorem score_eq_specScore (cfg : Config) (now : ℚ) (a : DocumentRecord) :
    score cfg now a = specScore cfg now a := by
  unfold score specScore
  rw [show ((1 : ℚ) / 5) = (0.2 : ℚ) from by norm_num]

/-- Claim C4: every recency-surviving record is scored by
`text_length / 1500 + freshness_bonus + origin_bonus` exactly as specified,
and selection takes the first `TOP_TEXTS` entries of a list that is a
permutation of the surviving records, is sorted by descending score, and
keeps any equal-score pair in its original discovery order (stability). -/
theorem spec2_C4 (cfg : Config) (env : Env) (items : List Item) :
    pipelineSelected cfg env items =
      (List.insertionSort (scoreRel cfg env.now) (pipelineRecent cfg env items)).take
        cfg.TOP_TEXTS ∧
    (∀ a ∈ pipelineRecent cfg env items, score cfg env.now a = specScore cfg env.now a) ∧
    List.Perm (List.insertionSort (scoreRel cfg env.now) (pipelineRecent cfg env items))
      (pipelineRecent cfg env items) ∧
    (List.insertionSort (scoreRel cfg env.now) (pipelineRecent cfg env items)).Pairwise
      (fun a b => specScore cfg env.now b ≤ specScore cfg env.now a) ∧
    (∀ a b : DocumentRecord, specScore cfg env.now a = specScore cfg env.now b →
      List.Sublist [a, b] (pipelineRecent cfg env items) →
      List.Sublist [a, b]
        (List.insertionSort (scoreRel cfg env.now) (pipelineRecent cfg env items))) := by
  haveI htotal : IsTotal DocumentRecord (scoreRel cfg env.now) :=
    ⟨fun a b => le_total (score cfg env.now b) (score cfg env.now a)⟩
  haveI htrans : IsTrans DocumentRecord (scoreRel cfg env.now) :=
    ⟨fun _ _ _ hab hbc => le_trans hbc hab⟩
  refine ⟨rfl, fun a _ => score_eq_specScore cfg env.now a, List.perm_insertionSort _ _,
    ?_, ?_⟩
  · have hs := List.sorted_insertionSort (scoreRel cfg env.now) (pipelineRecent cfg env items)
    refine hs.imp ?_
    intro a b hab
    rw [← score_eq_specScore, ← score_eq_specScore]
    exact hab
  · intro a b heq hsub
    refine List.pair_sublist_insertionSort ?_ hsub
    show score cfg env.now b ≤ score cfg env.now a
    rw [score_eq_specScore cfg env.now a, score_eq_specScore cfg env.now b, heq]

/-! ## Signal validation, bounds, and the fallback -/

theorem heuristic_summary_length (company : String) (texts : List DocumentRecord) :
    (heuristic_summary company texts).length = 1 := by
  cases texts <;> rfl

theorem pipelineLLMSignals_length_le (cfg : Config) (env : Env) (items : List Item) :
    (pipelineLLMSignals cfg env items).length ≤ cfg.SIGNAL_LIMIT := by
  unfold pipelineLLMSignals
  dsimp only
  split_ifs with hc h3
  · exact le_trans (le_of_eq (List.length_take _ _)) (min_le_left _ _)
  · exact le_trans (le_of_eq (List.length_take _ _)) (min_le_left _ _)
  · simp

/-- Claim C1 (amended): the artifact's `signals` array always has at least
one entry, and at most `max 1 SIGNAL_LIMIT` entries — the LLM path is
truncated to `SIGNAL_LIMIT`, and the fallback contributes exactly one signal
even when `SIGNAL_LIMIT` is configured as `0`. -/
theorem spec2_C1 (cfg : Config) (env : Env) (items : List Item) :
    1 ≤ (pipelineArtifact cfg env items).signals.length ∧
    (pipelineArtifact cfg env items).signals.length ≤ max 1 cfg.SIGNAL_LIMIT := by
  show 1 ≤ (pipelineSignals cfg env items).length ∧
    (pipelineSignals cfg env items).length ≤ max 1 cfg.SIGNAL_LIMIT
  unfold pipelineSignals
  by_cases h : pipelineLLMSignals cfg env items = []
  · rw [if_pos h, heuristic_summary_length]
    exact ⟨le_refl 1, le_max_left _ _⟩
  · rw [if_neg h]
    constructor
    · exact Nat.one_le_iff_ne_zero.mpr (fun h0 => h (List.eq_nil_of_length_eq_zero h0))
    · exact le_trans (pipelineLLMSignals_length_le cfg env items) (le_max_right _ _)

theorem pipelineLLMSignals_of_no_key (cfg : Config) (env : Env) (items : List Item)
    (hkey : cfg.OPENAI_API_KEY = "") : pipelineLLMSignals cfg env items = [] := by
  unfold pipelineLLMSignals
  rw [if_neg]
  rintro ⟨h1, _⟩
  exact h1 hkey

/-- Claim C5 (amended): whenever the backend is unconfigured or the whole
extraction phase yields nothing, the artifact carries exactly the one
heuristic `summary` signal — confidence `0.2` with the no-usable-content
note when nothing was selected, confidence `0.35` with a 280-character
excerpt otherwise, the headline being the top document's title, or the
company name when that title is empty. -/
theorem spec2_C5 (cfg : Config) (env : Env) (items : List Item)
    (h : cfg.OPENAI_API_KEY = "" ∨ pipelineLLMSignals cfg env items = []) :
    (pipelineArtifact cfg env items).signals =
      heuristic_summary cfg.COMPANY (pipelineSelected cfg env items) ∧
    (pipelineArtifact cfg env items).signals.length = 1 ∧
    (∀ s ∈ (pipelineArtifact cfg env items).signals, s.sigType = "summary") ∧
    (pipelineSelected cfg env items = [] →
      (pipelineArtifact cfg env items).signals =
        [{ sigType := "summary",
           value := { headline := some cfg.COMPANY,
                      summary := some "Keine verwertbaren Texte gefunden.",
                      note := some "Fallback" },
           confidence := 1 / 5 }]) ∧
    (∀ d rest, pipelineSelected cfg env items = d :: rest →
      (pipelineArtifact cfg env items).signals =
        [{ sigType := "summary",
           value := { headline := some (if d.title = "" then cfg.COMPANY else d.title),
                      summary := some (pySlice d.text 280),
                      note := some "Fallback" },
           confidence := 7 / 20 }]) := by
  have hLLM : pipelineLLMSignals cfg env items = [] := by
    rcases h with hkey | hllm
    · exact pipelineLLMSignals_of_no_key cfg env items hkey
    · exact hllm
  have hmain : (pipelineArtifact cfg env items).signals =
      heuristic_summary cfg.COMPANY (pipelineSelected cfg env items) := by
    show pipelineSignals cfg env items = _
    unfold pipelineSignals
    rw [if_pos hLLM]
  refine ⟨hmain, by rw [hmain, heuristic_summary_length], ?_, ?_, ?_⟩
  · intro s hs
    rw [hmain] at hs
    cases hsel : pipelineSelected cfg env items <;> rw [hsel] at hs <;>
      simp only [heuristic_summary, List.mem_singleton] at hs <;> rw [hs]
  · intro hsel
    rw [hmain, hsel]
    rfl
  · intro d rest hsel
    rw [hmain, hsel]
    rfl

theorem exists_raw_of_mem_take {entries : List RawEntry} {k : Nat} {s : Signal}
    (h : s ∈ (entries.filterMap validateEntry).take k) :
    ∃ raw : RawSig, s = validateSig raw := by
  have h2 := List.take_subset _ _ h
  rcases List.mem_filterMap.mp h2 with ⟨e, _, hv⟩
  cases e with
  | dict raw => exact ⟨raw, (Option.some_inj.mp hv).symm⟩
  | nondict => exact absurd hv (by simp [validateEntry])

theorem validateSig_conf_nonneg (raw : RawSig) : 0 ≤ (validateSig raw).confidence :=
  le_max_left 0 _

theorem validateSig_conf_le_one (raw : RawSig) : (validateSig raw).confidence ≤ 1 :=
  max_le zero_le_one (min_le_left 1 _)

theorem validateSig_type_default {raw : RawSig} (h : raw.typeField = none) :
    (validateSig raw).sigType = "summary" := by
  simp [validateSig, h, pyStr]

theorem validateSig_type_empty {raw : RawSig} (h : (validateSig raw).sigType = "") :
    ∃ v, raw.typeField = some v ∧ pyStr v = "" := by
  cases htf : raw.typeField with
  | none =>
    rw [validateSig_type_default htf] at h
    exact absurd h (by simp)
  | some v =>
    refine ⟨v, rfl, ?_⟩
    rw [← h]
    simp [validateSig, htf]

/-- Claim C6 (amended): every signal produced by the extraction/validation
step has its confidence clamped into `[0, 1]`; its `type` is the
string-coercion of the backend's `type` field, defaulting to `summary` when
that field is absent — so it can only be empty when the backend itself
supplies a value that coerces to the empty string. -/
theorem spec2_C6 (cfg : Config) (env : Env) (company : String)
    (texts : List DocumentRecord) (limit : Nat) (article : DocumentRecord) (s : Signal)
    (hs : s ∈ llm_batch_signals cfg env company texts limit ∨
          s ∈ llm_per_article cfg env company article) :
    (0 ≤ s.confidence ∧ s.confidence ≤ 1) ∧
    ∃ raw : RawSig, s = validateSig raw ∧
      (raw.typeField = none → s.sigType = "summary") ∧
      (s.sigType = "" → ∃ v, raw.typeField = some v ∧ pyStr v = "") := by
  have hex : ∃ raw : RawSig, s = validateSig raw := by
    rcases hs with h | h
    · unfold llm_batch_signals at h
      split_ifs at h with hk
      · exact absurd h (List.not_mem_nil s)
      · cases hr : env.batchResp texts with
        | none => rw [hr] at h; exact absurd h (List.not_mem_nil s)
        | some entries => rw [hr] at h; exact exists_raw_of_mem_take h
    · unfold llm_per_article at h
      split_ifs at h with hk
      · exact absurd h (List.not_mem_nil s)
      · cases hr : env.perArticleResp article with
        | none => rw [hr] at h; exact absurd h (List.not_mem_nil s)
        | some entries => rw [hr] at h; exact exists_raw_of_mem_take h
  obtain ⟨raw, rfl⟩ := hex
  exact ⟨⟨validateSig_conf_nonneg raw, validateSig_conf_le_one raw⟩,
    raw, rfl, fun h => validateSig_type_default h, fun h => validateSig_type_empty h⟩

/-! ## Report synthesis -/

/-- Claim C7 (amended): the artifact persists exactly the closed source list
handed to the report synthesizer; that list is the deduplicated sources
whose URL matches one of the first `REPORT_MAX_TEXTS` selected documents
(under the default configuration `REPORT_MAX_TEXTS ≥ TOP_TEXTS`, all
selected documents); and an unconfigured or failing backend yields an empty
report and an empty cited-sources list without aborting the run. -/
theorem spec2_C7 (cfg : Config) (env : Env) (items : List Item) :
    (pipelineArtifact cfg env items).report_markdown = (pipelineReport cfg env items).1 ∧
    (pipelineArtifact cfg env items).report_used_sources =
      (pipelineReport cfg env items).2 ∧
    (cfg.OPENAI_API_KEY = "" → pipelineReport cfg env items = ("", [])) ∧
    (env.reportResp (pipelineSelected cfg env items) (pipelineSignals cfg env items)
        (pipelineSources cfg env items) = none →
      pipelineReport cfg env items = ("", [])) ∧
    (∀ md, cfg.OPENAI_API_KEY ≠ "" →
      env.reportResp (pipelineSelected cfg env items) (pipelineSignals cfg env items)
        (pipelineSources cfg env items) = some md →
      pipelineReport cfg env items =
        (stripStr md,
         (pipelineSources cfg env items).filter fun s =>
           (((pipelineSelected cfg env items).take cfg.REPORT_MAX_TEXTS).map
             fun t => t.url).contains s.url)) := by
  refine ⟨rfl, rfl, ?_, ?_, ?_⟩
  · intro hk
    unfold pipelineReport llm_generate_report_markdown
    rw [if_pos hk]
  · intro hresp
    unfold pipelineReport llm_generate_report_markdown
    split_ifs with hk
    · rfl
    · dsimp only
      rw [hresp]
    · dsimp only
      rw [hresp]
  · intro md hk hresp
    unfold pipelineReport llm_generate_report_markdown
    rw [if_neg hk]
    dsimp only
    rw [hresp]
    rfl

/-! ## Two-run determinism with a disabled backend -/

theorem enrichItem_ext {env1 env2 : Env} (hf : env1.fetchResult = env2.fetchResult)
    (hc : env1.cleanText = env2.cleanText) (hp : env1.parseDate = env2.parseDate)
    (hx : env1.extractDate = env2.extractDate) (it : Item) :
    enrichItem env1 it = enrichItem env2 it := by
  unfold enrichItem
  rw [hf, hc, hp, hx]

theorem enrichLoop_ext (cfg : Config) {env1 env2 : Env}
    (hf : env1.fetchResult = env2.fetchResult) (hc : env1.cleanText = env2.cleanText)
    (hp : env1.parseDate = env2.parseDate) (hx : env1.extractDate = env2.extractDate) :
    ∀ l : List Item, enrichLoop cfg env1 l = enrichLoop cfg env2 l := by
  intro l
  induction l with
  | nil => rfl
  | cons it rest ih =>
    show (_, _) = (_, _)
    rw [enrichItem_ext hf hc hp hx it, ih]

/-- Claim C9 (amended): with the extraction backend disabled, the `signals`
and `sources` of the artifact are a function of the source snapshots and
the clock alone — two runs over identical snapshots that read the same
clock agree exactly, whatever the backend oracles would have answered. -/
theorem spec2_C9 (cfg : Config) (env1 env2 : Env) (items : List Item)
    (hkey : cfg.OPENAI_API_KEY = "")
    (hnow : env1.now = env2.now)
    (hf : env1.fetchResult = env2.fetchResult)
    (hc : env1.cleanText = env2.cleanText)
    (hp : env1.parseDate = env2.parseDate)
    (hx : env1.extractDate = env2.extractDate) :
    (pipelineArtifact cfg env1 items).signals = (pipelineArtifact cfg env2 items).signals ∧
    (pipelineArtifact cfg env1 items).sources = (pipelineArtifact cfg env2 items).sources := by
  have hloop : enrichLoop cfg env1 (dedupe items) = enrichLoop cfg env2 (dedupe items) :=
    enrichLoop_ext cfg hf hc hp hx (dedupe items)
  have hsel : pipelineSelected cfg env1 items = pipelineSelected cfg env2 items := by
    unfold pipelineSelected pipelineRecent pipelineEnriched
    rw [hloop, hnow]
  constructor
  · show pipelineSignals cfg env1 items = pipelineSignals cfg env2 items
    unfold pipelineSignals
    rw [pipelineLLMSignals_of_no_key cfg env1 items hkey,
      pipelineLLMSignals_of_no_key cfg env2 items hkey, hsel]
  · show pipelineSources cfg env1 items = pipelineSources cfg env2 items
    unfold pipelineSources
    rw [hloop]

/-! ## Concrete runs: counterexamples and witnesses -/

/-- The all-failing oracle at clock 0: every fetch raises, every date is
unparseable, the backend is unreachable. -/
def envTriv : Env :=
  { now := 0, fetchResult := fun _ => none, cleanText := fun _ => "",
    parseDate := fun _ => none, extractDate := fun _ => none,
    batchResp := fun _ => none, perArticleResp := fun _ => none,
    reportResp := fun _ _ _ => none }

/-- The source-default configuration. -/
def cfgDefault : Config := {}

/-- A run configured with `SIGNAL_LIMIT=0`. -/
def cfgNoLimit : Config := { SIGNAL_LIMIT := 0 }

/-- Counterexample to claim C1 as stated: with `SIGNAL_LIMIT` configured as
`0`, the fallback still emits one signal, so the artifact's `signals` length
exceeds the configured limit. -/
theorem spec2_C1_cex :
    cfgNoLimit.SIGNAL_LIMIT = 0 ∧
    (pipelineArtifact cfgNoLimit envTriv []).signals.length = 1 ∧
    ¬ ((pipelineArtifact cfgNoLimit envTriv []).signals.length ≤ cfgNoLimit.SIGNAL_LIMIT) :=
  ⟨rfl, by decide, by decide⟩

/-- A configuration whose article threshold admits a four-character body. -/
def cfgSmall : Config := { MIN_TEXT_CHARS_ARTICLE := 1 }

/-- An oracle that serves one fetchable page with a short cleaned body. -/
def envPage : Env :=
  { envTriv with
    fetchResult := fun _ => some "h"
    cleanText := fun _ => "abcd" }

/-- One discovered candidate whose title is the empty string. -/
def itemsUntitled : List Item :=
  [{ url := "http://a.com/x", title := "", source := "newsroom" }]

/-- Counterexample to claim C5 as stated: when the highest-scored selected
document has an empty title, the fallback signal's headline is the company
name, not that document's title. -/
theorem spec2_C5_cex :
    (pipelineSelected cfgSmall envPage itemsUntitled).map (fun d => d.title) = [""] ∧
    (pipelineArtifact cfgSmall envPage itemsUntitled).signals.map
      (fun s => s.value.headline) = [some "Pernod Ricard"] ∧
    some "Pernod Ricard" ≠ (some "" : Option String) :=
  ⟨by decide, by decide, by decide⟩

/-- A Scenario-B run: the backend is unconfigured and a single 500-character
LinkedIn post titled `X` is selected. -/
def itemsScenB : List Item :=
  [{ url := "http://l.com/p", title := "X", source := "linkedin:rss",
     prefetched_text := String.mk (List.replicate 500 'b') }]

/-- Witness for (amended) claim C5, instantiated at the Scenario-B run. -/
theorem spec2_C5_witness :
    (cfgDefault.OPENAI_API_KEY = "" ∨ pipelineLLMSignals cfgDefault envTriv itemsScenB = []) ∧
    ((pipelineArtifact cfgDefault envTriv itemsScenB).signals =
        heuristic_summary cfgDefault.COMPANY (pipelineSelected cfgDefault envTriv itemsScenB) ∧
      (pipelineArtifact cfgDefault envTriv itemsScenB).signals.length = 1 ∧
      (∀ s ∈ (pipelineArtifact cfgDefault envTriv itemsScenB).signals,
        s.sigType = "summary") ∧
      (pipelineSelected cfgDefault envTriv itemsScenB = [] →
        (pipelineArtifact cfgDefault envTriv itemsScenB).signals =
          [{ sigType := "summary",
             value := { headline := some cfgDefault.COMPANY,
                        summary := some "Keine verwertbaren Texte gefunden.",
                        note := some "Fallback" },
             confidence := 1 / 5 }]) ∧
      (∀ d rest, pipelineSelected cfgDefault envTriv itemsScenB = d :: rest →
        (pipelineArtifact cfgDefault envTriv itemsScenB).signals =
          [{ sigType := "summary",
             value := { headline := some (if d.title = "" then cfgDefault.COMPANY else d.title),
                        summary := some (pySlice d.text 280),
                        note := some "Fallback" },
             confidence := 7 / 20 }])) :=
  ⟨Or.inl rfl, spec2_C5 cfgDefault envTriv itemsScenB (Or.inl rfl)⟩

/-- A configuration with the extraction backend configured. -/
def cfgKey : Config := { OPENAI_API_KEY := "k" }

/-- A backend oracle answering the batch call with one well-formed entry
that has no `type` and no `confidence` field. -/
def envOneEntry : Env :=
  { envTriv with batchResp := fun _ => some [RawEntry.dict {}] }

/-- A backend oracle answering the batch call with one entry whose `type`
field is the empty string. -/
def envEmptyType : Env :=
  { envTriv with
    batchResp := fun _ => some [RawEntry.dict { typeField := some (PyVal.vstr "") }] }

/-- A document record with all fields trivial (per-article argument). -/
def docTriv : DocumentRecord := { url := "", title := "", source := "" }

/-- Counterexample to claim C6 as stated: a backend entry whose `type` field
is the empty string passes validation with an empty-string `type`. -/
theorem spec2_C6_cex :
    (llm_batch_signals cfgKey envEmptyType "c" [] 8).map (fun s => s.sigType) = [""] ∧
    (llm_batch_signals cfgKey envEmptyType "c" [] 8).length = 1 :=
  ⟨by decide, by decide⟩

/-- Witness for (amended) claim C6, instantiated at a batch answer with one
field-free entry. -/
theorem spec2_C6_witness :
    (validateSig {} ∈ llm_batch_signals cfgKey envOneEntry "c" [] 8 ∨
      validateSig {} ∈ llm_per_article cfgKey envOneEntry "c" docTriv) ∧
    ((0 ≤ (validateSig {}).confidence ∧ (validateSig {}).confidence ≤ 1) ∧
      ∃ raw : RawSig, validateSig {} = validateSig raw ∧
        (raw.typeField = none → (validateSig {}).sigType = "summary") ∧
        ((validateSig {}).sigType = "" → ∃ v, raw.typeField = some v ∧ pyStr v = "")) :=
  ⟨Or.inl (by decide),
    spec2_C6 cfgKey envOneEntry "c" [] 8 docTriv (validateSig {}) (Or.inl (by decide))⟩

/-- A run with the report backend configured but `REPORT_MAX_TEXTS=0`. -/
def cfgRep0 : Config :=
  { OPENAI_API_KEY := "k", REPORT_MAX_TEXTS := 0, MIN_TEXT_CHARS_ARTICLE := 1 }

/-- An oracle serving one page and a successful report answer. -/
def envRep : Env :=
  { envTriv with
    fetchResult := fun _ => some "h"
    cleanText := fun _ => "abcd"
    reportResp := fun _ _ _ => some "ok" }

/-- One discovered candidate for the report counterexample. -/
def itemsRep : List Item :=
  [{ url := "http://a.com/x", title := "T", source := "newsroom" }]

/-- Counterexample to claim C7 as stated: with `REPORT_MAX_TEXTS=0`, a
document is selected and its source survives deduplication, yet the
persisted cited-sources list is empty even though the report was produced —
the closed list tracks `selected[:REPORT_MAX_TEXTS]`, not the selected
documents. -/
theorem spec2_C7_cex :
    (pipelineSelected cfgRep0 envRep itemsRep).map (fun d => d.url) = ["http://a.com/x"] ∧
    (pipelineArtifact cfgRep0 envRep itemsRep).sources.map (fun s => s.url) =
      ["http://a.com/x"] ∧
    (pipelineArtifact cfgRep0 envRep itemsRep).report_markdown = "ok" ∧
    (pipelineArtifact cfgRep0 envRep itemsRep).report_used_sources = [] :=
  ⟨by decide, by decide, by decide, by decide⟩

/-- A snapshot oracle whose one document parses to publication time 0,
read at clock 604800 (exactly the default 7-day lookback, in seconds). -/
def envClockA : Env :=
  { envTriv with
    now := 604800
    fetchResult := fun _ => some "h"
    cleanText := fun _ => "abcd"
    parseDate := fun _ => some 0 }

/-- The identical snapshot oracle read one second later. -/
def envClockB : Env := { envClockA with now := 604801 }

/-- One discovered candidate carrying a feed timestamp. -/
def itemsClock : List Item :=
  [{ url := "http://a.com/x", title := "T", source := "newsroom",
     published_at := some "2020-01-01T00:00:00Z" }]

/-- Counterexample to claim C9 as stated: two runs with the backend disabled
over byte-identical snapshots, differing only in when the clock is read,
produce different `signals` — the boundary document falls out of the
lookback window in the later run and the fallback signal changes. -/
theorem spec2_C9_cex :
    cfgSmall.OPENAI_API_KEY = "" ∧
    envClockA.fetchResult = envClockB.fetchResult ∧
    envClockA.cleanText = envClockB.cleanText ∧
    envClockA.parseDate = envClockB.parseDate ∧
    envClockA.extractDate = envClockB.extractDate ∧
    (pipelineArtifact cfgSmall envClockA itemsClock).sources =
      (pipelineArtifact cfgSmall envClockB itemsClock).sources ∧
    (pipelineArtifact cfgSmall envClockA itemsClock).signals ≠
      (pipelineArtifact cfgSmall envClockB itemsClock).signals :=
  ⟨rfl, rfl, rfl, rfl, rfl, by decide, by decide⟩

/-- A backend oracle that differs from `envClockA` only in its (unused,
because unconfigured) batch answer. -/
def envClockA2 : Env := { envClockA with batchResp := fun _ => some [] }

/-- Witness for (amended) claim C9: the snapshot-agreement hypotheses hold
between `envClockA` and `envClockA2`, and the theorem transports `signals`
and `sources` across the differing backend oracle. -/
theorem spec2_C9_witness :
    (cfgSmall.OPENAI_API_KEY = "" ∧ envClockA.now = envClockA2.now ∧
      envClockA.fetchResult = envClockA2.fetchResult ∧
      envClockA.cleanText = envClockA2.cleanText ∧
      envClockA.parseDate = envClockA2.parseDate ∧
      envClockA.extractDate = envClockA2.extractDate) ∧
    ((pipelineArtifact cfgSmall envClockA itemsClock).signals =
        (pipelineArtifact cfgSmall envClockA2 itemsClock).signals ∧
      (pipelineArtifact cfgSmall envClockA itemsClock).sources =
        (pipelineArtifact cfgSmall envClockA2 itemsClock).sources) :=
  ⟨⟨rfl, rfl, rfl, rfl, rfl, rfl⟩,
    spec2_C9 cfgSmall envClockA envClockA2 itemsClock rfl rfl rfl rfl rfl rfl⟩

end PRAgent
